import Mathlib

/-!
Shallow embedding of the resilience core of the repository:
`src/rpc/pool.rs` (circuit breaker, TTL response cache, round-robin client
selection, retry loop of `get_account_with_retry`) and
`src/pool/object_pool.rs` (generic object pool with RAII return).

Modelling conventions:
- `Instant` timestamps are `Nat`; `Instant::elapsed()` is truncated
  subtraction `now - t`, which agrees with Rust for a monotonic clock.
- `Pubkey` and `Account` are opaque to this layer and modelled as `Nat`.
- The `HashMap<Pubkey, CachedResponse>` is an association list whose lookup
  takes the first matching key; `insert` prepends the new entry and removes
  the previous entries for that key (the overwrite semantics of the map).
- Rust panics (index / modulo by zero in `get_next_client`) are modelled by
  `Option`: `none` is a panic.
- `&mut self` methods become functions returning the updated value; the
  transport (`RpcClient::get_account`) becomes an explicit oracle
  `transport : Nat → Except String Account` giving the outcome of the n-th
  transport call of one invocation.
-/

abbrev Pubkey := Nat
abbrev Account := Nat

/-- Rust `enum CircuitState { Closed, Open, HalfOpen }` from src/rpc/pool.rs. -/
inductive CircuitState where
  | Closed
  | Open
  | HalfOpen
deriving DecidableEq

/-- Rust `struct CircuitBreaker` from src/rpc/pool.rs. -/
structure CircuitBreaker where
  state : CircuitState
  failure_count : Nat
  last_failure_time : Option Nat
  failure_threshold : Nat
  timeout : Nat
deriving DecidableEq

namespace CircuitBreaker

/-- Model of `CircuitBreaker::new`. -/
def new (failure_threshold : Nat) (timeout_secs : Nat) : CircuitBreaker :=
  { state := .Closed
    failure_count := 0
    last_failure_time := none
    failure_threshold := failure_threshold
    timeout := timeout_secs }

/-- Model of `CircuitBreaker::record_success`. -/
def record_success (cb : CircuitBreaker) : CircuitBreaker :=
  { cb with failure_count := 0, state := .Closed }

/-- Model of `CircuitBreaker::record_failure`; `now` is the value of `Instant::now()`. -/
def record_failure (cb : CircuitBreaker) (now : Nat) : CircuitBreaker :=
  let cb1 := { cb with
    failure_count := cb.failure_count + 1
    last_failure_time := some now }
  if cb1.failure_threshold ≤ cb1.failure_count then
    { cb1 with state := .Open }
  else
    cb1

/-- Model of `CircuitBreaker::can_attempt`; returns the bool together with the
updated breaker (`&mut self`). -/
def can_attempt (cb : CircuitBreaker) (now : Nat) : Bool × CircuitBreaker :=
  match cb.state with
  | .Closed => (true, cb)
  | .Open =>
    match cb.last_failure_time with
    | some last_failure =>
      if cb.timeout ≤ now - last_failure then
        (true, { cb with state := .HalfOpen })
      else
        (false, cb)
    | none => (false, cb)
  | .HalfOpen => (true, cb)

end CircuitBreaker

/-- One call to `record_success` / `record_failure` / `can_attempt`, with the
clock value observed by the call where the code reads `Instant::now()`. -/
inductive CBOp where
  | success
  | failure (now : Nat)
  | attempt (now : Nat)

/-- The state transformation of one breaker call (the bool returned by
`can_attempt` is discarded, only the state evolution is kept). -/
def stepCB (cb : CircuitBreaker) : CBOp → CircuitBreaker
  | .success => cb.record_success
  | .failure now => cb.record_failure now
  | .attempt now => (cb.can_attempt now).2

/-- The spec invariant: `state == Open` implies
`failure_count >= failure_threshold`. -/
def CBInv (cb : CircuitBreaker) : Prop :=
  cb.state = .Open → cb.failure_threshold ≤ cb.failure_count

/-- Rust `struct CachedResponse` from src/rpc/pool.rs. -/
structure CachedResponse where
  data : Account
  expires_at : Nat
deriving DecidableEq

/-- The `HashMap<Pubkey, CachedResponse>` cache as an association list. -/
abbrev Cache := List (Pubkey × CachedResponse)

/-- Model of `RpcPool::get_from_cache`: the cached value iff the entry exists and
`cached.expires_at > Instant::now()`. -/
def get_from_cache (cache : Cache) (pubkey : Pubkey) (now : Nat) : Option Account :=
  match cache.find? (fun p => p.1 == pubkey) with
  | some p => if now < p.2.expires_at then some p.2.data else none
  | none => none

/-- Model of `RpcPool::add_to_cache`: `cache.insert(pubkey, { data, expires_at =
now + ttl })`; the map overwrite is the prepend-and-drop-old of an
association list. -/
def add_to_cache (cache : Cache) (pubkey : Pubkey) (account : Account)
    (now ttl : Nat) : Cache :=
  (pubkey, { data := account, expires_at := now + ttl }) ::
    cache.filter (fun p => !(p.1 == pubkey))

/-- The `BotError` variants reachable from `get_account_with_retry`
(src/common/error.rs). -/
inductive BotError where
  | RpcError (endpoint : String) (message : String) (retryable : Bool)
  | AccountFetchError (address : Pubkey) (reason : String)
deriving DecidableEq

/-- Constant `MAX_RPC_RETRIES` from src/constants.rs. -/
def MAX_RPC_RETRIES : Nat := 5

/-- Constant `RETRY_INITIAL_BACKOFF_MS` from src/constants.rs. -/
def RETRY_INITIAL_BACKOFF_MS : Nat := 100

/-- Constant `RETRY_MAX_BACKOFF_MS` from src/constants.rs. -/
def RETRY_MAX_BACKOFF_MS : Nat := 5000

/-- Rust `struct RpcPool`; an `Arc<RpcClient>` is opaque and modelled as `Nat`. -/
structure RpcPool where
  clients : List Nat
  cache : Cache
  cache_ttl : Nat
  current_client_index : Nat
  circuit_breaker : CircuitBreaker
deriving DecidableEq

/-- Model of `RpcPool::get_next_client`: `clients[index % clients.len()]`, then
`index = (index + 1) % clients.len()`. With an empty client list the modulo
panics, modelled as `none`. Returns the selected client and new index. -/
def get_next_client (clients : List Nat) (index : Nat) : Option (Nat × Nat) :=
  if h : 0 < clients.length then
    some (clients.get ⟨index % clients.length, Nat.mod_lt index h⟩,
          (index + 1) % clients.length)
  else
    none

/-- Model of `RpcPool::attempt_get_account`: selects the next client (panic = `none`
when the list is empty), issues the transport call whose outcome is `tr`,
and wraps a transport error into `BotError::AccountFetchError`. -/
def attempt_get_account (pool : RpcPool) (pubkey : Pubkey)
    (tr : Except String Account) : Option (Except BotError Account × RpcPool) :=
  match get_next_client pool.clients pool.current_client_index with
  | none => none
  | some sel =>
    let pool1 := { pool with current_client_index := sel.2 }
    match tr with
    | .ok account => some (.ok account, pool1)
    | .error e =>
      some (.error (.AccountFetchError pubkey ("RPC error: " ++ e)), pool1)

/-- Observable outcome of one `get_account_with_retry` invocation:
the returned value (`none` = panic), the final pool state, the number of
transport fetch calls issued, and the number of `record_failure` calls. -/
structure LoopResult where
  result : Option (Except BotError Account)
  pool : RpcPool
  calls : Nat
  failRecs : Nat

/-- The `for attempt in 0..MAX_RPC_RETRIES` retry loop of
`get_account_with_retry`, together with the all-attempts-failed epilogue
(`record_failure` once, return the last error). `remaining` counts the
attempts still allowed (`MAX_RPC_RETRIES - attempt` at entry); the backoff
doubling `backoff_ms = min(backoff_ms * 2, RETRY_MAX_BACKOFF_MS)` is kept
even though sleeping itself is not observable here. -/
def retryFrom (pool : RpcPool) (pubkey : Pubkey)
    (transport : Nat → Except String Account) (now : Nat)
    (attempt remaining backoff_ms : Nat) (last_error : Option BotError) :
    LoopResult :=
  match remaining with
  | 0 =>
    { result := some (.error (last_error.getD
        (.RpcError "pool" "All retry attempts exhausted" true)))
      pool := { pool with circuit_breaker := pool.circuit_breaker.record_failure now }
      calls := 0
      failRecs := 1 }
  | r + 1 =>
    match attempt_get_account pool pubkey (transport attempt) with
    | none => { result := none, pool := pool, calls := 0, failRecs := 0 }
    | some (.ok account, pool1) =>
      { result := some (.ok account)
        pool := { pool1 with
          circuit_breaker := pool1.circuit_breaker.record_success
          cache := add_to_cache pool1.cache pubkey account now pool1.cache_ttl }
        calls := 1
        failRecs := 0 }
    | some (.error e, pool1) =>
      let backoff1 :=
        if attempt < MAX_RPC_RETRIES - 1 then
          min (backoff_ms * 2) RETRY_MAX_BACKOFF_MS
        else backoff_ms
      let rest := retryFrom pool1 pubkey transport now (attempt + 1) r backoff1 (some e)
      { rest with calls := rest.calls + 1 }

/-- Model of `RpcPool::get_account_with_retry`: cache lookup, breaker gate, then the
bounded retry loop. -/
def get_account_with_retry (pool : RpcPool) (pubkey : Pubkey)
    (transport : Nat → Except String Account) (now : Nat) : LoopResult :=
  match get_from_cache pool.cache pubkey now with
  | some cached => { result := some (.ok cached), pool := pool, calls := 0, failRecs := 0 }
  | none =>
    let gate := pool.circuit_breaker.can_attempt now
    let pool1 := { pool with circuit_breaker := gate.2 }
    if gate.1 then
      retryFrom pool1 pubkey transport now 0 MAX_RPC_RETRIES
        RETRY_INITIAL_BACKOFF_MS none
    else
      { result := some (.error (.RpcError "pool" "Circuit breaker is OPEN" true))
        pool := pool1
        calls := 0
        failRecs := 0 }

/-- Combined state of one `ObjectPool<T>` (src/pool/object_pool.rs) and its
outstanding `PooledObject` handles. `objects` is the pool `Vec<T>` with the
list head as the top of the stack (`Vec::pop` / `Vec::push` end), `held`
lists the values inside not-yet-dropped `PooledObject`s, `extras` counts
the factory calls made by `acquire` on an empty pool. -/
structure PoolSys where
  objects : List Nat
  held : List Nat
  extras : Nat
deriving DecidableEq

namespace PoolSys

/-- Model of `ObjectPool::new(factory, initial_capacity)`: pre-allocates
`initial_capacity` instances via `factory`. -/
def new (factory : Unit → Nat) (initial_capacity : Nat) : PoolSys :=
  { objects := List.replicate initial_capacity (factory ())
    held := []
    extras := 0 }

/-- Model of `ObjectPool::acquire`: `pool.pop().unwrap_or_else(|| factory())`; the
obtained value moves into a fresh `PooledObject`. -/
def acquire (factory : Unit → Nat) (s : PoolSys) : PoolSys :=
  match s.objects with
  | obj :: rest => { s with objects := rest, held := obj :: s.held }
  | [] => { s with held := factory () :: s.held, extras := s.extras + 1 }

/-- Model of `Drop for PooledObject`: the handle at position `i` of `held` takes its
value and pushes it back into the pool. An index with no handle is a no-op
(it cannot arise from real handles). -/
def dropAt (s : PoolSys) (i : Nat) : PoolSys :=
  match s.held[i]? with
  | some obj => { s with objects := obj :: s.objects, held := s.held.eraseIdx i }
  | none => s

/-- Model of `ObjectPool::size`: current idle count. -/
def size (s : PoolSys) : Nat := s.objects.length

end PoolSys

/-- One client action against the pool system: an `acquire` or the drop of
the `i`-th outstanding handle. -/
inductive PoolOp where
  | acq
  | rel (i : Nat)

/-- The state transformation of one pool action. -/
def poolStep (factory : Unit → Nat) (s : PoolSys) : PoolOp → PoolSys
  | .acq => s.acquire factory
  | .rel i => s.dropAt i

/-- Concrete two-endpoint pool with an empty cache and a fresh breaker
(`CircuitBreaker::new(5, 30)` as in `RpcPool::new`), used to evaluate the
theorems on explicit inputs. -/
def testPool : RpcPool :=
  { clients := [1, 2]
    cache := []
    cache_ttl := 10
    current_client_index := 0
    circuit_breaker := CircuitBreaker.new 5 30 }

/-- Pool `testPool` with its breaker tripped Open at time 100. -/
def testPoolOpen : RpcPool :=
  { testPool with circuit_breaker :=
    { state := .Open, failure_count := 5, last_failure_time := some 100,
      failure_threshold := 5, timeout := 30 } }

/-- A pool constructed from an empty endpoint URL list. -/
def emptyPool : RpcPool :=
  { clients := []
    cache := []
    cache_ttl := 10
    current_client_index := 0
    circuit_breaker := CircuitBreaker.new 5 30 }

/-- Transport oracle: first call fails, later calls return account 7. -/
def tr1 : Nat → Except String Account :=
  fun i => if i = 0 then .error "x" else .ok 7

/-- Transport oracle: every call fails. -/
def trFail : Nat → Except String Account := fun _ => .error "down"

/-- The error strings observed by `trFail`. -/
def esDown : Nat → String := fun _ => "down"

/-! ## Helper lemmas -/

theorem attempt_get_account_eq (pool : RpcPool) (pk : Pubkey)
    (tr : Except String Account) (h : pool.clients ≠ []) :
    attempt_get_account pool pk tr = some
      ((match tr with
        | .ok a => .ok a
        | .error e => .error (.AccountFetchError pk ("RPC error: " ++ e))),
       { pool with current_client_index :=
          (pool.current_client_index + 1) % pool.clients.length }) := by
  have hl : 0 < pool.clients.length := List.length_pos.mpr h
  unfold attempt_get_account get_next_client
  rw [dif_pos hl]
  cases tr <;> rfl

theorem attempt_get_account_frame (pool : RpcPool) (pk : Pubkey)
    (tr : Except String Account) (res : Except BotError Account) (pool1 : RpcPool)
    (h : attempt_get_account pool pk tr = some (res, pool1)) :
    pool1.cache = pool.cache ∧ pool1.clients = pool.clients ∧
    pool1.cache_ttl = pool.cache_ttl ∧
    pool1.circuit_breaker = pool.circuit_breaker := by
  unfold attempt_get_account at h
  cases hg : get_next_client pool.clients pool.current_client_index with
  | none => rw [hg] at h; exact absurd h (by simp)
  | some sel =>
    rw [hg] at h
    cases tr with
    | ok a =>
      simp only [Option.some.injEq, Prod.mk.injEq] at h
      rw [← h.2]
      exact ⟨rfl, rfl, rfl, rfl⟩
    | error e =>
      simp only [Option.some.injEq, Prod.mk.injEq] at h
      rw [← h.2]
      exact ⟨rfl, rfl, rfl, rfl⟩

theorem retryFrom_calls_le (pk : Pubkey) (transport : Nat → Except String Account)
    (now : Nat) :
    ∀ (remaining : Nat) (pool : RpcPool) (attempt backoff_ms : Nat)
      (last_error : Option BotError),
    (retryFrom pool pk transport now attempt remaining backoff_ms last_error).calls
      ≤ remaining := by
  intro remaining
  induction remaining with
  | zero =>
    intro pool attempt backoff_ms last_error
    simp [retryFrom]
  | succ r ih =>
    intro pool attempt backoff_ms last_error
    unfold retryFrom
    cases h : attempt_get_account pool pk (transport attempt) with
    | none => simp
    | some p =>
      obtain ⟨res, pool1⟩ := p
      cases res with
      | ok a => simp
      | error e =>
        dsimp only
        exact Nat.succ_le_succ (ih pool1 (attempt + 1) _ (some e))

theorem retryFrom_ne_none (pk : Pubkey) (transport : Nat → Except String Account)
    (now : Nat) :
    ∀ (remaining : Nat) (pool : RpcPool) (attempt backoff_ms : Nat)
      (last_error : Option BotError),
    pool.clients ≠ [] →
    (retryFrom pool pk transport now attempt remaining backoff_ms last_error).result
      ≠ none := by
  intro remaining
  induction remaining with
  | zero =>
    intro pool attempt backoff_ms last_error _
    simp [retryFrom]
  | succ r ih =>
    intro pool attempt backoff_ms last_error hcl
    unfold retryFrom
    rw [attempt_get_account_eq pool pk (transport attempt) hcl]
    cases htr : transport attempt with
    | ok a => simp
    | error e =>
      dsimp only
      exact ih _ (attempt + 1) _ (some _) hcl

theorem retryFrom_err_cache (pk : Pubkey) (transport : Nat → Except String Account)
    (now : Nat) :
    ∀ (remaining : Nat) (pool : RpcPool) (attempt backoff_ms : Nat)
      (last_error : Option BotError) (e : BotError),
    (retryFrom pool pk transport now attempt remaining backoff_ms last_error).result
      = some (.error e) →
    (retryFrom pool pk transport now attempt remaining backoff_ms last_error).pool.cache
      = pool.cache := by
  intro remaining
  induction remaining with
  | zero =>
    intro pool attempt backoff_ms last_error e _
    simp [retryFrom]
  | succ r ih =>
    intro pool attempt backoff_ms last_error e
    unfold retryFrom
    cases h : attempt_get_account pool pk (transport attempt) with
    | none =>
      intro herr
      simp at herr
    | some p =>
      obtain ⟨res, pool1⟩ := p
      cases res with
      | ok a =>
        intro herr
        simp at herr
      | error e1 =>
        intro herr
        dsimp only at herr ⊢
        have hc := (attempt_get_account_frame pool pk (transport attempt) _ _ h).1
        rw [ih pool1 (attempt + 1) _ (some e1) e herr]
        exact hc

theorem retryFrom_success_at (pk : Pubkey) (transport : Nat → Except String Account)
    (now : Nat) (a : Account) :
    ∀ (k remaining : Nat) (pool : RpcPool) (attempt backoff_ms : Nat)
      (last_error : Option BotError),
      k < remaining →
      pool.clients ≠ [] →
      (∀ i, i < k → ∃ e, transport (attempt + i) = .error e) →
      transport (attempt + k) = .ok a →
      (retryFrom pool pk transport now attempt remaining backoff_ms last_error).result
        = some (.ok a) ∧
      (retryFrom pool pk transport now attempt remaining backoff_ms last_error).calls
        = k + 1 := by
  intro k
  induction k with
  | zero =>
    intro remaining pool attempt backoff_ms last_error hk hcl _ hok
    obtain ⟨r, rfl⟩ : ∃ r, remaining = r + 1 := ⟨remaining - 1, by omega⟩
    rw [Nat.add_zero] at hok
    unfold retryFrom
    rw [attempt_get_account_eq pool pk (transport attempt) hcl, hok]
    exact ⟨rfl, rfl⟩
  | succ k ih =>
    intro remaining pool attempt backoff_ms last_error hk hcl hfail hok
    obtain ⟨r, rfl⟩ : ∃ r, remaining = r + 1 := ⟨remaining - 1, by omega⟩
    obtain ⟨e0, he0⟩ := hfail 0 (Nat.succ_pos k)
    rw [Nat.add_zero] at he0
    unfold retryFrom
    rw [attempt_get_account_eq pool pk (transport attempt) hcl, he0]
    dsimp only
    have hfail1 : ∀ i, i < k → ∃ e, transport (attempt + 1 + i) = .error e := by
      intro i hi
      obtain ⟨e, he⟩ := hfail (i + 1) (by omega)
      exact ⟨e, by rw [show attempt + 1 + i = attempt + (i + 1) by omega]; exact he⟩
    have hok1 : transport (attempt + 1 + k) = .ok a := by
      rw [show attempt + 1 + k = attempt + (k + 1) by omega]
      exact hok
    have hrec := ih r
      { pool with current_client_index :=
          (pool.current_client_index + 1) % pool.clients.length }
      (attempt + 1)
      (if attempt < MAX_RPC_RETRIES - 1 then
        min (backoff_ms * 2) RETRY_MAX_BACKOFF_MS else backoff_ms)
      (some (.AccountFetchError pk ("RPC error: " ++ e0)))
      (by omega) hcl hfail1 hok1
    exact ⟨hrec.1, congrArg (· + 1) hrec.2⟩

theorem retryFrom_all_fail (pk : Pubkey) (transport : Nat → Except String Account)
    (now : Nat) (es : Nat → String) :
    ∀ (remaining : Nat) (pool : RpcPool) (attempt backoff_ms : Nat) (e0 : BotError),
      pool.clients ≠ [] →
      (∀ i, i < remaining → transport (attempt + i) = .error (es (attempt + i))) →
      (retryFrom pool pk transport now attempt remaining backoff_ms (some e0)).failRecs
        = 1 ∧
      (retryFrom pool pk transport now attempt remaining backoff_ms (some e0)).result
        = some (.error (if remaining = 0 then e0 else
            .AccountFetchError pk ("RPC error: " ++ es (attempt + remaining - 1)))) ∧
      (retryFrom pool pk transport now attempt remaining backoff_ms (some e0)).calls
        = remaining := by
  intro remaining
  induction remaining with
  | zero =>
    intro pool attempt backoff_ms e0 hcl _
    refine ⟨rfl, ?_, rfl⟩
    simp [retryFrom]
  | succ r ih =>
    intro pool attempt backoff_ms e0 hcl hfail
    have he0 : transport attempt = .error (es attempt) := by
      have h0 := hfail 0 (Nat.succ_pos r)
      rwa [Nat.add_zero] at h0
    unfold retryFrom
    rw [attempt_get_account_eq pool pk (transport attempt) hcl, he0]
    dsimp only
    have hfail1 : ∀ i, i < r →
        transport (attempt + 1 + i) = .error (es (attempt + 1 + i)) := by
      intro i hi
      have hx := hfail (i + 1) (by omega)
      rwa [show attempt + (i + 1) = attempt + 1 + i by omega] at hx
    have hrec := ih
      { pool with current_client_index :=
          (pool.current_client_index + 1) % pool.clients.length }
      (attempt + 1)
      (if attempt < MAX_RPC_RETRIES - 1 then
        min (backoff_ms * 2) RETRY_MAX_BACKOFF_MS else backoff_ms)
      (.AccountFetchError pk ("RPC error: " ++ es attempt))
      hcl hfail1
    refine ⟨hrec.1, ?_, congrArg (· + 1) hrec.2.2⟩
    rcases r with _ | s
    · have h1 := hrec.2.1
      rw [if_pos (show (0 : Nat) = 0 from rfl)] at h1
      have h2 : (if 0 + 1 = 0 then e0 else
          BotError.AccountFetchError pk ("RPC error: " ++ es (attempt + (0 + 1) - 1)))
          = .AccountFetchError pk ("RPC error: " ++ es attempt) := by
        rw [if_neg (by omega)]
        rw [show attempt + (0 + 1) - 1 = attempt by omega]
      exact h2 ▸ h1
    · have h1 := hrec.2.1
      rw [if_neg (show ¬ (s + 1 = 0) by omega)] at h1
      have h2 : (if s + 1 + 1 = 0 then e0 else
          BotError.AccountFetchError pk
            ("RPC error: " ++ es (attempt + (s + 1 + 1) - 1)))
          = .AccountFetchError pk
              ("RPC error: " ++ es (attempt + 1 + (s + 1) - 1)) := by
        rw [if_neg (by omega)]
        rw [show attempt + (s + 1 + 1) - 1 = attempt + 1 + (s + 1) - 1 by omega]
      exact h2 ▸ h1

theorem can_attempt_snd_fields (cb : CircuitBreaker) (now : Nat) :
    (cb.can_attempt now).2.failure_count = cb.failure_count ∧
    (cb.can_attempt now).2.failure_threshold = cb.failure_threshold ∧
    ((cb.can_attempt now).2.state = cb.state ∨
      (cb.can_attempt now).2.state = .HalfOpen) := by
  obtain ⟨st, fc, lft, fth, tmo⟩ := cb
  cases st <;> dsimp only [CircuitBreaker.can_attempt]
  · exact ⟨rfl, rfl, Or.inl rfl⟩
  · cases lft <;> dsimp only
    · exact ⟨rfl, rfl, Or.inl rfl⟩
    · split
      · exact ⟨rfl, rfl, Or.inr rfl⟩
      · exact ⟨rfl, rfl, Or.inl rfl⟩
  · exact ⟨rfl, rfl, Or.inl rfl⟩

theorem stepCB_preserves_inv (cb : CircuitBreaker) (op : CBOp) (h : CBInv cb) :
    CBInv (stepCB cb op) := by
  unfold CBInv at h ⊢
  cases op with
  | success =>
    intro hst
    simp [stepCB, CircuitBreaker.record_success] at hst
  | failure now =>
    unfold stepCB CircuitBreaker.record_failure
    dsimp only
    by_cases hc : cb.failure_threshold ≤ cb.failure_count + 1
    · rw [if_pos hc]
      intro _
      exact hc
    · rw [if_neg hc]
      intro hst
      exact absurd (Nat.le_succ_of_le (h hst)) hc
  | attempt now =>
    intro hst
    obtain ⟨hfc, hfth, hstate⟩ := can_attempt_snd_fields cb now
    rw [show stepCB cb (.attempt now) = (cb.can_attempt now).2 from rfl] at hst ⊢
    rw [hfc, hfth]
    rcases hstate with hsame | hhalf
    · exact h (by rw [← hsame]; exact hst)
    · rw [hhalf] at hst
      simp at hst

theorem foldl_stepCB_inv :
    ∀ (ops : List CBOp) (cb : CircuitBreaker),
      CBInv cb → CBInv (ops.foldl stepCB cb) := by
  intro ops
  induction ops with
  | nil => exact fun _ h => h
  | cons op rest ih => exact fun cb h => ih _ (stepCB_preserves_inv cb op h)

theorem CBInv_new (F timeout_secs : Nat) : CBInv (CircuitBreaker.new F timeout_secs) := by
  intro hst
  simp [CircuitBreaker.new] at hst

theorem foldl_record_failure_closed (F : Nat) :
    ∀ (ts : List Nat) (cb : CircuitBreaker),
      cb.failure_threshold = F →
      cb.state = (if F ≤ cb.failure_count then CircuitState.Open else .Closed) →
      (ts.foldl CircuitBreaker.record_failure cb).failure_count
        = cb.failure_count + ts.length ∧
      (ts.foldl CircuitBreaker.record_failure cb).failure_threshold = F ∧
      (ts.foldl CircuitBreaker.record_failure cb).state
        = (if F ≤ cb.failure_count + ts.length then CircuitState.Open else .Closed) := by
  intro ts
  induction ts with
  | nil =>
    intro cb hF hst
    refine ⟨by simp, by simpa using hF, ?_⟩
    simpa using hst
  | cons t ts ih =>
    intro cb hF hst
    simp only [List.foldl_cons, List.length_cons]
    have hF1 : (cb.record_failure t).failure_threshold = F := by
      unfold CircuitBreaker.record_failure
      dsimp only
      split <;> exact hF
    have hcnt1 : (cb.record_failure t).failure_count = cb.failure_count + 1 := by
      unfold CircuitBreaker.record_failure
      dsimp only
      split <;> rfl
    have hst1 : (cb.record_failure t).state
        = (if F ≤ cb.failure_count + 1 then CircuitState.Open else .Closed) := by
      unfold CircuitBreaker.record_failure
      dsimp only
      rw [hF]
      by_cases hc : F ≤ cb.failure_count + 1
      · rw [if_pos hc, if_pos hc]
      · rw [if_neg hc, if_neg hc]
        rw [hst, if_neg (by omega)]
    obtain ⟨ih1, ih2, ih3⟩ := ih (cb.record_failure t) hF1 (by rw [hcnt1]; exact hst1)
    refine ⟨by rw [ih1, hcnt1]; omega, ih2, ?_⟩
    rw [ih3, hcnt1]
    rw [show cb.failure_count + 1 + ts.length = cb.failure_count + (ts.length + 1) by omega]

theorem poolStep_conserves (factory : Unit → Nat) (N : Nat) (s : PoolSys)
    (op : PoolOp) (h : s.size + s.held.length = N + s.extras) :
    (poolStep factory s op).size + (poolStep factory s op).held.length
      = N + (poolStep factory s op).extras := by
  cases op with
  | acq =>
    unfold poolStep PoolSys.acquire
    unfold PoolSys.size at h ⊢
    cases ho : s.objects with
    | nil =>
      rw [ho] at h
      simp at h ⊢
      omega
    | cons obj rest =>
      rw [ho] at h
      simp at h ⊢
      omega
  | rel i =>
    unfold poolStep PoolSys.dropAt
    unfold PoolSys.size at h ⊢
    dsimp only
    cases ho : s.held[i]? with
    | none => exact h
    | some obj =>
      obtain ⟨hi, _⟩ := List.getElem?_eq_some.mp ho
      have hlen := List.length_eraseIdx_add_one hi
      dsimp only
      simp only [List.length_cons]
      omega

theorem foldl_poolStep_conserves (factory : Unit → Nat) (N : Nat) :
    ∀ (ops : List PoolOp) (s : PoolSys),
      s.size + s.held.length = N + s.extras →
      (ops.foldl (poolStep factory) s).size
          + (ops.foldl (poolStep factory) s).held.length
        = N + (ops.foldl (poolStep factory) s).extras := by
  intro ops
  induction ops with
  | nil => exact fun _ h => h
  | cons op rest ih =>
    intro s h
    simp only [List.foldl_cons]
    exact ih _ (poolStep_conserves factory N s op h)

theorem retryFrom_all_fail_none (pk : Pubkey)
    (transport : Nat → Except String Account) (now : Nat) (es : Nat → String)
    (remaining : Nat) (pool : RpcPool) (attempt backoff_ms : Nat)
    (hpos : 0 < remaining)
    (hcl : pool.clients ≠ [])
    (hfail : ∀ i, i < remaining → transport (attempt + i) = .error (es (attempt + i))) :
    (retryFrom pool pk transport now attempt remaining backoff_ms none).failRecs
      = 1 ∧
    (retryFrom pool pk transport now attempt remaining backoff_ms none).result
      = some (.error (.AccountFetchError pk
          ("RPC error: " ++ es (attempt + remaining - 1)))) ∧
    (retryFrom pool pk transport now attempt remaining backoff_ms none).calls
      = remaining := by
  obtain ⟨r, rfl⟩ : ∃ r, remaining = r + 1 := ⟨remaining - 1, by omega⟩
  have he0 : transport attempt = .error (es attempt) := by
    have h0 := hfail 0 (Nat.succ_pos r)
    rwa [Nat.add_zero] at h0
  unfold retryFrom
  rw [attempt_get_account_eq pool pk (transport attempt) hcl, he0]
  dsimp only
  have hfail1 : ∀ i, i < r →
      transport (attempt + 1 + i) = .error (es (attempt + 1 + i)) := by
    intro i hi
    have hx := hfail (i + 1) (by omega)
    rwa [show attempt + (i + 1) = attempt + 1 + i by omega] at hx
  have hrec := retryFrom_all_fail pk transport now es r
    { pool with current_client_index :=
        (pool.current_client_index + 1) % pool.clients.length }
    (attempt + 1)
    (if attempt < MAX_RPC_RETRIES - 1 then
      min (backoff_ms * 2) RETRY_MAX_BACKOFF_MS else backoff_ms)
    (.AccountFetchError pk ("RPC error: " ++ es attempt))
    hcl hfail1
  refine ⟨hrec.1, ?_, congrArg (· + 1) hrec.2.2⟩
  rcases r with _ | s
  · have h1 := hrec.2.1
    rw [if_pos (show (0 : Nat) = 0 from rfl)] at h1
    rw [show attempt + (0 + 1) - 1 = attempt by omega]
    exact h1
  · have h1 := hrec.2.1
    rw [if_neg (show ¬ (s + 1 = 0) by omega)] at h1
    rw [show attempt + (s + 1 + 1) - 1 = attempt + 1 + (s + 1) - 1 by omega]
    exact h1

theorem retryFrom_none_of_nil (pk : Pubkey)
    (transport : Nat → Except String Account) (now : Nat)
    (remaining : Nat) (hpos : 0 < remaining) (pool : RpcPool)
    (attempt backoff_ms : Nat) (last_error : Option BotError)
    (hnil : pool.clients = []) :
    (retryFrom pool pk transport now attempt remaining backoff_ms last_error).result
      = none := by
  obtain ⟨r, rfl⟩ : ∃ r, remaining = r + 1 := ⟨remaining - 1, by omega⟩
  unfold retryFrom
  have hnone : attempt_get_account pool pk (transport attempt) = none := by
    unfold attempt_get_account get_next_client
    rw [dif_neg (by rw [hnil]; simp)]
  simp [hnone]

/-! ## Claim theorems -/

/-- C1 counterexample: for a breaker in HalfOpen with `failure_count = 3` at
threshold 3, `record_failure` does return the state to Open and refresh
`last_failure_time`, but it does NOT leave `failure_count` unchanged at its
pre-call value: the count is incremented from 3 to 4. -/
theorem halfopen_failure_count_increments_cex :
    (CircuitBreaker.record_failure
      { state := .HalfOpen, failure_count := 3, last_failure_time := some 0,
        failure_threshold := 3, timeout := 30 } 10).state = .Open ∧
    (CircuitBreaker.record_failure
      { state := .HalfOpen, failure_count := 3, last_failure_time := some 0,
        failure_threshold := 3, timeout := 30 } 10).failure_count ≠ 3 := by
  decide

/-- C1 (amended): `record_failure()` on a HalfOpen breaker whose
`failure_count` is at or above `failure_threshold` transitions the state
back to Open, refreshes `last_failure_time` to the current time, and
increments `failure_count` by one (so it stays at or above the
threshold). -/
theorem halfopen_record_failure_spec (cb : CircuitBreaker) (now : Nat)
    (_hst : cb.state = .HalfOpen)
    (hth : cb.failure_threshold ≤ cb.failure_count) :
    (cb.record_failure now).state = .Open ∧
    (cb.record_failure now).last_failure_time = some now ∧
    (cb.record_failure now).failure_count = cb.failure_count + 1 := by
  unfold CircuitBreaker.record_failure
  dsimp only
  rw [if_pos (by omega)]
  exact ⟨rfl, rfl, rfl⟩

/-- C1 witness: the amended claim evaluated on a HalfOpen breaker with
threshold 3 and count 3, failing at time 20. -/
theorem halfopen_record_failure_spec_witness :
    (CircuitBreaker.record_failure
      { state := .HalfOpen, failure_count := 3, last_failure_time := some 0,
        failure_threshold := 3, timeout := 30 } 20).state = .Open ∧
    (CircuitBreaker.record_failure
      { state := .HalfOpen, failure_count := 3, last_failure_time := some 0,
        failure_threshold := 3, timeout := 30 } 20).last_failure_time = some 20 ∧
    (CircuitBreaker.record_failure
      { state := .HalfOpen, failure_count := 3, last_failure_time := some 0,
        failure_threshold := 3, timeout := 30 } 20).failure_count = 3 + 1 :=
  halfopen_record_failure_spec
    { state := .HalfOpen, failure_count := 3, last_failure_time := some 0,
      failure_threshold := 3, timeout := 30 } 20 rfl (by decide)

/-- C3: after `put(K, V)` at time `T` with ttl `D`, `get(K)` returns
`Some(V)` at every time in `[T, T + D)` and `None` at `T + D` and later;
moreover the inserted entry has `expires_at = T + D` and shadows (overwrites)
every previous entry for `K`. -/
theorem cache_put_get_ttl (cache : Cache) (pubkey : Pubkey) (v : Account)
    (T D t : Nat) :
    (T ≤ t → t < T + D →
      get_from_cache (add_to_cache cache pubkey v T D) pubkey t = some v) ∧
    (T + D ≤ t →
      get_from_cache (add_to_cache cache pubkey v T D) pubkey t = none) ∧
    (add_to_cache cache pubkey v T D).find? (fun p => p.1 == pubkey)
      = some (pubkey, { data := v, expires_at := T + D }) := by
  have hfind : (add_to_cache cache pubkey v T D).find? (fun p => p.1 == pubkey)
      = some (pubkey, { data := v, expires_at := T + D }) := by
    unfold add_to_cache
    rw [List.find?_cons_of_pos _ (by simp)]
  refine ⟨?_, ?_, hfind⟩
  · intro _ ht
    unfold get_from_cache
    rw [hfind]
    dsimp only
    rw [if_pos ht]
  · intro ht
    unfold get_from_cache
    rw [hfind]
    dsimp only
    rw [if_neg (by omega)]

/-- C3 witness: put key 3 with value 42 at time 100 and ttl 10; a read at
105 hits, a read at 110 misses. -/
theorem cache_put_get_ttl_witness :
    get_from_cache (add_to_cache [] 3 42 100 10) 3 105 = some 42 ∧
    get_from_cache (add_to_cache [] 3 42 100 10) 3 110 = none :=
  ⟨(cache_put_get_ttl [] 3 42 100 10 105).1 (by decide) (by decide),
   (cache_put_get_ttl [] 3 42 100 10 110).2.1 (by decide)⟩

/-- C4: from the initial Closed breaker with threshold `F ≥ 1`, exactly `F`
consecutive `record_failure()` calls (at arbitrary times, with no
intervening `record_success()`) leave the state Open; and one
`record_success()` from any state and any count resets `failure_count` to 0
and the state to Closed. -/
theorem breaker_threshold_open_and_success_reset :
    (∀ (F timeout_secs : Nat) (ts : List Nat),
      0 < F → ts.length = F →
      (ts.foldl CircuitBreaker.record_failure
        (CircuitBreaker.new F timeout_secs)).state = .Open) ∧
    (∀ cb : CircuitBreaker,
      cb.record_success.failure_count = 0 ∧ cb.record_success.state = .Closed) := by
  constructor
  · intro F timeout_secs ts hF hlen
    have hbase : (CircuitBreaker.new F timeout_secs).state
        = (if F ≤ (CircuitBreaker.new F timeout_secs).failure_count then
            CircuitState.Open else .Closed) := by
      simp only [CircuitBreaker.new]
      rw [if_neg (by omega)]
    have h := foldl_record_failure_closed F ts
      (CircuitBreaker.new F timeout_secs) rfl hbase
    rw [h.2.2]
    simp only [CircuitBreaker.new]
    rw [hlen, if_pos (by omega)]
  · intro cb
    exact ⟨rfl, rfl⟩

/-- C4 witness: threshold 3, three failures at times 0, 1, 2 open the
breaker; `record_success` on the fresh breaker keeps count 0 and state
Closed. -/
theorem breaker_threshold_open_and_success_reset_witness :
    ([0, 1, 2].foldl CircuitBreaker.record_failure
      (CircuitBreaker.new 3 1)).state = .Open ∧
    ((CircuitBreaker.new 3 1).record_success.failure_count = 0 ∧
     (CircuitBreaker.new 3 1).record_success.state = .Closed) :=
  ⟨breaker_threshold_open_and_success_reset.1 3 1 [0, 1, 2]
      (by decide) (by decide),
   breaker_threshold_open_and_success_reset.2 (CircuitBreaker.new 3 1)⟩

/-- C5: for an Open breaker with `last_failure_time = some t`,
`can_attempt(now)` returns false (leaving the breaker unchanged) while
`now - t < timeout`, and once `timeout ≤ now - t` it returns true and in the
same call moves the state to HalfOpen; in HalfOpen every further
`can_attempt` returns true without changing the breaker again, so one
timeout expiry yields exactly one Open-to-HalfOpen transition. -/
theorem breaker_open_recovery (cb : CircuitBreaker) (now t : Nat)
    (hst : cb.state = .Open) (hlast : cb.last_failure_time = some t) :
    (now - t < cb.timeout → cb.can_attempt now = (false, cb)) ∧
    (cb.timeout ≤ now - t →
      cb.can_attempt now = (true, { cb with state := .HalfOpen }) ∧
      (∀ now2 : Nat,
        CircuitBreaker.can_attempt { cb with state := .HalfOpen } now2
          = (true, { cb with state := .HalfOpen }))) := by
  constructor
  · intro hlt
    unfold CircuitBreaker.can_attempt
    rw [hst, hlast]
    dsimp only
    rw [if_neg (by omega)]
  · intro hge
    refine ⟨?_, ?_⟩
    · unfold CircuitBreaker.can_attempt
      rw [hst, hlast]
      dsimp only
      rw [if_pos hge]
    · intro now2
      unfold CircuitBreaker.can_attempt
      rfl

/-- C5 witness: breaker Open since time 10 with timeout 30: `can_attempt` at
20 is a refusal leaving the breaker unchanged; at 40 it permits and moves to
HalfOpen. -/
theorem breaker_open_recovery_witness :
    CircuitBreaker.can_attempt
      { state := .Open, failure_count := 3, last_failure_time := some 10,
        failure_threshold := 3, timeout := 30 } 20
      = (false,
         { state := .Open, failure_count := 3, last_failure_time := some 10,
           failure_threshold := 3, timeout := 30 }) ∧
    CircuitBreaker.can_attempt
      { state := .Open, failure_count := 3, last_failure_time := some 10,
        failure_threshold := 3, timeout := 30 } 40
      = (true,
         { state := .HalfOpen, failure_count := 3, last_failure_time := some 10,
           failure_threshold := 3, timeout := 30 }) :=
  ⟨(breaker_open_recovery
      { state := .Open, failure_count := 3, last_failure_time := some 10,
        failure_threshold := 3, timeout := 30 } 20 10 rfl rfl).1 (by decide),
   ((breaker_open_recovery
      { state := .Open, failure_count := 3, last_failure_time := some 10,
        failure_threshold := 3, timeout := 30 } 40 10 rfl rfl).2
      (by decide)).1⟩

/-- C6: the invariant "state = Open implies failure_count ≥
failure_threshold" is preserved by each of `record_success`,
`record_failure` and `can_attempt`, and holds for every breaker reachable
from the initial state by any sequence of those calls. -/
theorem breaker_open_invariant :
    (∀ (cb : CircuitBreaker) (op : CBOp), CBInv cb → CBInv (stepCB cb op)) ∧
    (∀ (F timeout_secs : Nat) (ops : List CBOp),
      CBInv (ops.foldl stepCB (CircuitBreaker.new F timeout_secs))) := by
  refine ⟨stepCB_preserves_inv, ?_⟩
  intro F timeout_secs ops
  exact foldl_stepCB_inv ops _ (CBInv_new F timeout_secs)

/-- C6 witness: after three failures on a threshold-3 breaker the state is
Open, and the invariant instantiated there yields `3 ≤ failure_count`. -/
theorem breaker_open_invariant_witness :
    ([CBOp.failure 1, .failure 2, .failure 3].foldl stepCB
      (CircuitBreaker.new 3 30)).failure_threshold ≤
    ([CBOp.failure 1, .failure 2, .failure 3].foldl stepCB
      (CircuitBreaker.new 3 30)).failure_count :=
  breaker_open_invariant.2 3 30 [.failure 1, .failure 2, .failure 3]
    (by decide)

/-- C2: one invocation of `get_account_with_retry` issues at most
`MAX_RPC_RETRIES` transport fetch calls; and when the cache misses, the
breaker gate passes, the endpoint list is non-empty, and the first `k`
transport outcomes fail while the `(k+1)`-th succeeds with account `a`
(`k < MAX_RPC_RETRIES`, 0-indexed), the invocation returns `Ok(a)` after
exactly `k + 1` transport calls — it never calls the transport again after
a success. -/
theorem retry_call_bound_and_first_success (pool : RpcPool) (pubkey : Pubkey)
    (transport : Nat → Except String Account) (now : Nat) :
    (get_account_with_retry pool pubkey transport now).calls ≤ MAX_RPC_RETRIES ∧
    (∀ (k : Nat) (a : Account),
      get_from_cache pool.cache pubkey now = none →
      (pool.circuit_breaker.can_attempt now).1 = true →
      pool.clients ≠ [] →
      k < MAX_RPC_RETRIES →
      (∀ i, i < k → ∃ e, transport i = .error e) →
      transport k = .ok a →
      (get_account_with_retry pool pubkey transport now).result = some (.ok a) ∧
      (get_account_with_retry pool pubkey transport now).calls = k + 1) := by
  constructor
  · unfold get_account_with_retry
    cases hc : get_from_cache pool.cache pubkey now with
    | some cached => exact Nat.zero_le _
    | none =>
      dsimp only
      by_cases hg : (pool.circuit_breaker.can_attempt now).1 = true
      · rw [if_pos hg]
        exact retryFrom_calls_le pubkey transport now MAX_RPC_RETRIES _ 0 _ none
      · rw [if_neg hg]
        exact Nat.zero_le _
  · intro k a hcache hgate hcl hk hfail hok
    unfold get_account_with_retry
    rw [hcache]
    dsimp only
    rw [if_pos hgate]
    exact retryFrom_success_at pubkey transport now a k MAX_RPC_RETRIES
      { pool with circuit_breaker := (pool.circuit_breaker.can_attempt now).2 }
      0 RETRY_INITIAL_BACKOFF_MS none hk hcl
      (fun i hi => by rw [Nat.zero_add]; exact hfail i hi)
      (by rw [Nat.zero_add]; exact hok)

/-- C2 witness: on the two-endpoint pool, with the first transport call
failing and the second succeeding with account 7, the fetch returns
`Ok(7)` after exactly 2 transport calls. -/
theorem retry_call_bound_and_first_success_witness :
    (get_account_with_retry testPool 0 tr1 0).result = some (.ok 7) ∧
    (get_account_with_retry testPool 0 tr1 0).calls = 1 + 1 :=
  (retry_call_bound_and_first_success testPool 0 tr1 0).2 1 7 rfl rfl
    (by decide) (by decide)
    (fun i hi => ⟨"x", by rw [Nat.lt_one_iff.mp hi]; rfl⟩) rfl

/-- C7: when the cache misses, the gate passes, the endpoint list is
non-empty and all `MAX_RPC_RETRIES` transport attempts fail (the `i`-th with
message `es i`), the invocation records exactly one breaker failure for the
whole invocation and returns the error observed on the last attempt. -/
theorem retry_exhausted_single_failure_record (pool : RpcPool) (pubkey : Pubkey)
    (transport : Nat → Except String Account) (now : Nat) (es : Nat → String)
    (hcache : get_from_cache pool.cache pubkey now = none)
    (hgate : (pool.circuit_breaker.can_attempt now).1 = true)
    (hcl : pool.clients ≠ [])
    (hfail : ∀ i, i < MAX_RPC_RETRIES → transport i = .error (es i)) :
    (get_account_with_retry pool pubkey transport now).failRecs = 1 ∧
    (get_account_with_retry pool pubkey transport now).result
      = some (.error (.AccountFetchError pubkey
          ("RPC error: " ++ es (MAX_RPC_RETRIES - 1)))) := by
  unfold get_account_with_retry
  rw [hcache]
  dsimp only
  rw [if_pos hgate]
  have h := retryFrom_all_fail_none pubkey transport now es MAX_RPC_RETRIES
    { pool with circuit_breaker := (pool.circuit_breaker.can_attempt now).2 }
    0 RETRY_INITIAL_BACKOFF_MS (by decide) hcl
    (fun i hi => by rw [Nat.zero_add]; exact hfail i hi)
  exact ⟨h.1, h.2.1⟩

/-- C7 witness: on the two-endpoint pool with every transport call failing
with "down", the fetch records one breaker failure and returns the
wrapped last-attempt error. -/
theorem retry_exhausted_single_failure_record_witness :
    (get_account_with_retry testPool 0 trFail 0).failRecs = 1 ∧
    (get_account_with_retry testPool 0 trFail 0).result
      = some (.error (.AccountFetchError 0
          ("RPC error: " ++ esDown (MAX_RPC_RETRIES - 1)))) :=
  retry_exhausted_single_failure_record testPool 0 trFail 0 esDown rfl rfl
    (by decide) (fun i _ => rfl)

/-- C8: every invocation of `get_account_with_retry` that returns an error
(circuit-open fail-fast or exhausted retries) leaves the response cache
exactly as it was; the cache is written only on a successful fetch. -/
theorem failed_fetch_cache_unchanged (pool : RpcPool) (pubkey : Pubkey)
    (transport : Nat → Except String Account) (now : Nat) (e : BotError)
    (herr : (get_account_with_retry pool pubkey transport now).result
      = some (.error e)) :
    (get_account_with_retry pool pubkey transport now).pool.cache
      = pool.cache := by
  unfold get_account_with_retry at herr ⊢
  cases hc : get_from_cache pool.cache pubkey now with
  | some cached => rfl
  | none =>
    rw [hc] at herr
    dsimp only at herr ⊢
    by_cases hg : (pool.circuit_breaker.can_attempt now).1 = true
    · rw [if_pos hg] at herr ⊢
      exact retryFrom_err_cache pubkey transport now MAX_RPC_RETRIES _ 0
        RETRY_INITIAL_BACKOFF_MS none e herr
    · rw [if_neg hg] at herr ⊢

/-- C8 witness: with the breaker Open and the timeout not yet elapsed, the
fetch fail-fasts with the circuit-open error and the cache is untouched. -/
theorem failed_fetch_cache_unchanged_witness :
    (get_account_with_retry testPoolOpen 0 trFail 110).pool.cache
      = testPoolOpen.cache :=
  failed_fetch_cache_unchanged testPoolOpen 0 trFail 110
    (.RpcError "pool" "Circuit breaker is OPEN" true) rfl

/-- C10: if the pool was built from an empty endpoint URL list, any fetch
that misses the cache and passes the breaker gate panics (`none`, the
modulo-by-zero in `get_next_client`) instead of returning an error; with a
non-empty list the same invocation never panics. -/
theorem empty_clients_fetch_panics (pool : RpcPool) (pubkey : Pubkey)
    (transport : Nat → Except String Account) (now : Nat)
    (hcache : get_from_cache pool.cache pubkey now = none)
    (hgate : (pool.circuit_breaker.can_attempt now).1 = true) :
    (pool.clients = [] →
      (get_account_with_retry pool pubkey transport now).result = none) ∧
    (pool.clients ≠ [] →
      (get_account_with_retry pool pubkey transport now).result ≠ none) := by
  constructor
  · intro hnil
    unfold get_account_with_retry
    rw [hcache]
    dsimp only
    rw [if_pos hgate]
    exact retryFrom_none_of_nil pubkey transport now MAX_RPC_RETRIES
      (by decide) _ 0 RETRY_INITIAL_BACKOFF_MS none hnil
  · intro hne
    unfold get_account_with_retry
    rw [hcache]
    dsimp only
    rw [if_pos hgate]
    exact retryFrom_ne_none pubkey transport now MAX_RPC_RETRIES _ 0
      RETRY_INITIAL_BACKOFF_MS none hne

/-- C10 witness: the empty-endpoint pool panics on a cache-missing fetch. -/
theorem empty_clients_fetch_panics_witness :
    (get_account_with_retry emptyPool 0 trFail 0).result = none :=
  (empty_clients_fetch_panics emptyPool 0 trFail 0 rfl rfl).1 rfl

/-- C9: for an ObjectPool created with initial capacity `N`, after any
sequence of `acquire` calls and drops of outstanding `PooledObject` handles,
the idle count `size()` plus the number of currently-held instances equals
`N` plus the number of factory-created extras; in particular with no
overflow beyond `N` (`extras = 0`), `size()` is `N` minus the number held.
Dropping a handle always pushes its value back into the pool. -/
theorem object_pool_conservation :
    (∀ (factory : Unit → Nat) (N : Nat) (ops : List PoolOp),
      (ops.foldl (poolStep factory) (PoolSys.new factory N)).size
          + (ops.foldl (poolStep factory) (PoolSys.new factory N)).held.length
        = N + (ops.foldl (poolStep factory) (PoolSys.new factory N)).extras) ∧
    (∀ (factory : Unit → Nat) (N : Nat) (ops : List PoolOp),
      (ops.foldl (poolStep factory) (PoolSys.new factory N)).extras = 0 →
      (ops.foldl (poolStep factory) (PoolSys.new factory N)).size
        = N - (ops.foldl (poolStep factory) (PoolSys.new factory N)).held.length) ∧
    (∀ (s : PoolSys) (i : Nat) (obj : Nat),
      s.held[i]? = some obj → (s.dropAt i).objects = obj :: s.objects) := by
  have hmain : ∀ (factory : Unit → Nat) (N : Nat) (ops : List PoolOp),
      (ops.foldl (poolStep factory) (PoolSys.new factory N)).size
          + (ops.foldl (poolStep factory) (PoolSys.new factory N)).held.length
        = N + (ops.foldl (poolStep factory) (PoolSys.new factory N)).extras := by
    intro factory N ops
    exact foldl_poolStep_conserves factory N ops (PoolSys.new factory N)
      (by simp [PoolSys.new, PoolSys.size])
  refine ⟨hmain, ?_, ?_⟩
  · intro factory N ops hex
    have h := hmain factory N ops
    omega
  · intro s i obj ho
    simp [PoolSys.dropAt, ho]

/-- C9 witness: capacity 2, one acquire then its drop: no extras were
created and the idle count is back to 2 minus the 0 still held. -/
theorem object_pool_conservation_witness :
    ([PoolOp.acq, .rel 0].foldl (poolStep (fun _ => 0))
      (PoolSys.new (fun _ => 0) 2)).size
      = 2 - ([PoolOp.acq, .rel 0].foldl (poolStep (fun _ => 0))
          (PoolSys.new (fun _ => 0) 2)).held.length :=
  object_pool_conservation.2.1 (fun _ => 0) 2 [.acq, .rel 0] rfl
